import Mathlib

/-!
Formal model of the `node-http-interceptor` interception engine
(`src/http-interceptor.ts`), shallowly embedded in Lean.

JavaScript conventions are made explicit: truthiness checks are modelled by
`Bool`-valued functions, `undefined` by `Option`/`JsField`, thrown exceptions by
an explicit `thrown : Option JsErr` component, and JS objects (string-keyed,
insertion ordered, unique keys) by ordered association lists.
-/

/-- A JS exception, as far as the engine can observe one. -/
inductive JsErr
  | typeError
  | listenerError
  deriving Repr, DecidableEq

/-! ## Header values and `normaliseHeaders` -/

/-- Value of a raw (incoming/outgoing) header entry: `number | string | string[] | undefined`. -/
inductive HeaderValue
  | num (n : Int)
  | str (s : String)
  | arr (l : List String)
  | undef
  deriving Repr, DecidableEq

/-- Value of a normalised header entry: `string | string[]`. -/
inductive NVal
  | one (s : String)
  | many (l : List String)
  deriving Repr, DecidableEq

/-- JS truthiness of a raw header value (`if (value)` in `normaliseHeaders`). -/
def jsTruthyHV : HeaderValue → Bool
  | .num n => n != 0
  | .str s => s != ""
  | .arr _ => true
  | .undef => false

/-- `[...new Set(value)]`: deduplicate keeping first occurrences, in order. -/
def jsDedup (l : List String) : List String :=
  l.foldl (fun acc x => if acc.contains x then acc else acc ++ [x]) []

/-- One normalised value: numbers via `toString(10)`, arrays deduplicated and
flattened to a single string when exactly one distinct value remains. -/
def normaliseOne (v : HeaderValue) : NVal :=
  match v with
  | .num n => .one (toString n)
  | .str s => .one s
  | .arr l =>
      match jsDedup l with
      | [x] => .one x
      | d => .many d
  | .undef => .one ""

/-- `normaliseHeaders` (http-interceptor.ts:712-731): iterate entries in order,
drop falsy values, convert numbers to base-10 strings, dedupe/flatten arrays. -/
def normaliseHeaders (hs : List (String × HeaderValue)) : List (String × NVal) :=
  hs.foldl
    (fun acc kv =>
      if jsTruthyHV kv.2 then acc ++ [(kv.1, normaliseOne kv.2)] else acc)
    []

/-- Property lookup on a JS-object-as-assoc-list (first matching key). -/
def lookupH (l : List (String × NVal)) (k : String) : Option NVal :=
  match l with
  | [] => none
  | kv :: rest => if kv.1 == k then some kv.2 else lookupH rest k

/-- JS `a` if present else `b` (used to state header-overlay facts). -/
def optOr (a b : Option NVal) : Option NVal :=
  match a with
  | some v => some v
  | none => b

/-- JS object literal `{ ...base, ...over }` semantics: keys of `base` keep their
positions (values overridden by `over` on conflict), then the keys of `over`
not present in `base` are appended in their own order. -/
def objSpread (base over : List (String × NVal)) : List (String × NVal) :=
  base.map (fun kv => (kv.1, (lookupH over kv.1).getD kv.2))
    ++ over.filter (fun kv => (lookupH base kv.1).isNone)

/-! ## Stub response fabrication -/

/-- What an installed stub returns: `statusCode`/`statusMessage` may be absent
at runtime (the engine guards them with `||`), headers raw, body bytes. -/
structure StubResponse where
  statusCode : Option Nat
  statusMessage : Option String
  headers : List (String × HeaderValue)
  body : List Nat
  deriving Repr, DecidableEq

/-- The `IncomingMessage` fabricated for a stub, as observers see it. -/
structure FabricatedResponse where
  statusCode : Nat
  statusMessage : String
  headers : List (String × NVal)
  body : List Nat
  deriving Repr, DecidableEq

/-- The fixed diagnostic header block of a stubbed response
(http-interceptor.ts:440-446); the `date` value is the current time rendered
as a UTC string, taken here as a parameter. -/
def diagnosticHeaders (date : String) : List (String × NVal) :=
  [("server", .one "http-interceptor/stub"),
   ("x-stub", .one "true"),
   ("content-type", .one "application/octet-stream"),
   ("date", .one date)]

/-- Fabrication of the stub response (http-interceptor.ts:432-449):
`statusCode || 200`, `statusMessage || 'OK'`, headers
`{ ...diagnostic, ...normaliseHeaders(stub.headers) }`, body pushed verbatim. -/
def fabricateStubResponse (sr : StubResponse) (date : String) : FabricatedResponse :=
  { statusCode :=
      match sr.statusCode with
      | some n => if n != 0 then n else 200
      | none => 200
    statusMessage :=
      match sr.statusMessage with
      | some s => if s != "" then s else "OK"
      | none => "OK"
    headers := objSpread (diagnosticHeaders date) (normaliseHeaders sr.headers)
    body := sr.body }

/-! ## Bytes, chunks and encodings -/

/-- UTF-8 bytes of a string (Node `Buffer.from(s, 'utf-8')`). -/
def utf8Bytes (s : String) : List Nat :=
  s.toUTF8.data.toList.map (fun b => b.toNat)

/-- Latin-1 bytes of a string (Node `Buffer.from(s, 'latin1')`). -/
def latin1Bytes (s : String) : List Nat :=
  s.data.map (fun c => c.toNat % 256)

/-- Valid Node string encodings that the model distinguishes. -/
inductive Encoding
  | utf8
  | latin1
  deriving Repr, DecidableEq

/-- The second argument of `write`/`end`: absent, an encoding string, or a
callback function sitting in the encoding slot. -/
inductive EncArg
  | noEnc
  | enc (e : Encoding)
  | cb
  deriving Repr, DecidableEq

/-- `Buffer.from(s, encoding || 'utf-8')`: an absent encoding defaults to
UTF-8 via the `||`, and Node's `Buffer.from` itself falls back to UTF-8 when
the encoding argument is not a string (e.g. a callback function). -/
def decodeStr (e : EncArg) (s : String) : List Nat :=
  match e with
  | .enc .latin1 => latin1Bytes s
  | _ => utf8Bytes s

/-- A chunk argument of `write`/`end`: a string, a buffer, a callback in the
chunk slot, or `null`/`undefined`. -/
inductive Chunk
  | str (s : String)
  | buf (b : List Nat)
  | fn
  | nullish
  deriving Repr, DecidableEq

/-- The payload bytes an individual `write`/`end` call passes to the transport:
strings decoded with the per-call encoding (UTF-8 by default), buffers
verbatim; a callback or `null` carries no bytes. -/
def chunkBytes (c : Chunk) (e : EncArg) : List Nat :=
  match c with
  | .str s => decodeStr e s
  | .buf b => b
  | .fn => []
  | .nullish => []

/-- The `body` field of a snapshot: the explicit `false` not-captured marker
or fully buffered bytes. -/
inductive BodyVal
  | notCaptured
  | bytes (b : List Nat)
  deriving Repr, DecidableEq

/-! ## Per-request context and observers -/

/-- The per-request mutable state one interception touches: the timing store
of the `RequestContext`, the body accumulators, the snapshot body fields, the
trace of observer callbacks that actually executed (`ran`, in execution
order), and how many wrapper-boundary errors were logged (`logged`). -/
structure Ctx where
  sockLookup : Option Nat := none
  sockConnect : Option Nat := none
  sockTls : Option Nat := none
  sockReady : Option Nat := none
  sockError : Option Nat := none
  sockClose : Option Nat := none
  reqFinish : Option Nat := none
  reqClose : Option Nat := none
  reqTimeout : Option Nat := none
  reqWrite : Option Nat := none
  reqEnd : Option Nat := none
  respRead : Option Nat := none
  respEnd : Option Nat := none
  respError : Option Nat := none
  respAborted : Option Nat := none
  chunks : List (List Nat) := []
  respChunks : List (List Nat) := []
  reqBody : BodyVal := .notCaptured
  resBody : BodyVal := .notCaptured
  ran : List Nat := []
  logged : Nat := 0
  deriving Repr, DecidableEq

/-- A fresh context, as allocated at the start of an intercepted call. -/
def ctx0 : Ctx := {}

/-- JS falsiness of a stored timing checkpoint: `!t` is true for `undefined`
and for the number `0`. -/
def jsFalsyTime : Option Nat → Bool
  | none => true
  | some n => n == 0

/-- A registered observer callback: its identity, and whether invoking it
throws. -/
structure Listener where
  id : Nat
  throws : Bool
  deriving Repr, DecidableEq

/-- Node `EventEmitter.prototype.emit`: listeners run synchronously in
subscription order; a throwing listener's exception propagates out of `emit`
immediately, so listeners after it do not run.  Returns the ids that executed
and whether the dispatch threw. -/
def emitRun : List Listener → List Nat × Bool
  | [] => ([], false)
  | l :: ls =>
      if l.throws then ([l.id], true)
      else
        let p := emitRun ls
        (l.id :: p.fst, p.snd)

/-- Outcome of one wrapped operation: the context afterwards, whether the real
underlying operation was still invoked, and the exception (if any) that
escaped the wrapper to its caller. -/
structure WrapResult where
  ctx : Ctx
  underlyingInvoked : Bool
  thrown : Option JsErr
  deriving Repr, DecidableEq

/-! ## The lifecycle wrappers -/

/-- The wrapped `request.write` (http-interceptor.ts:525-547): inside a `try`,
set `timing.request.write` on first write, and under the capture policy
(`notPeek = false`) push the chunk's bytes (string chunks through
`Buffer.from(chunk, encoding || 'utf-8')`, skipping falsy and function
chunks); the real `write` is always invoked afterwards. -/
def writeWrapper (notPeek : Bool) (t : Nat) (chunk : Chunk) (en : EncArg) (st : Ctx) :
    WrapResult :=
  let st1 := if jsFalsyTime st.reqWrite then { st with reqWrite := some t } else st
  let st2 :=
    if notPeek then st1
    else
      match chunk with
      | .str s => if s == "" then st1 else { st1 with chunks := st1.chunks ++ [decodeStr en s] }
      | .buf b => { st1 with chunks := st1.chunks ++ [b] }
      | .fn => st1
      | .nullish => st1
  ⟨st2, true, none⟩

/-- The wrapped `request.end` (http-interceptor.ts:549-578): inside a `try`,
back-fill `timing.request.write` when no write ever occurred, set
`timing.request.end`, under the capture policy push the final chunk and
finalize `req.body = Buffer.concat(chunks)`, then emit `request.sent`; a
throwing observer is caught by the wrapper boundary and logged; the real
`end` is always invoked afterwards. -/
def endWrapper (notPeek : Bool) (sentListeners : List Listener) (t : Nat)
    (chunk : Chunk) (en : EncArg) (st : Ctx) : WrapResult :=
  let st1 := if jsFalsyTime st.reqWrite then { st with reqWrite := some t } else st
  let st2 := { st1 with reqEnd := some t }
  let st3 :=
    if notPeek then st2
    else
      let st9 :=
        match chunk with
        | .str s => if s == "" then st2 else { st2 with chunks := st2.chunks ++ [decodeStr en s] }
        | .buf b => { st2 with chunks := st2.chunks ++ [b] }
        | .fn => st2
        | .nullish => st2
      { st9 with reqBody := .bytes st9.chunks.flatten }
  let p := emitRun sentListeners
  let st4 := { st3 with
    ran := st3.ran ++ p.fst
    logged := st3.logged + (if p.snd then 1 else 0) }
  ⟨st4, true, none⟩

/-- The events the wrapped `request.emit` dispatches on; the `response` case
records whether the response-side capture policy declines capture, which
decides whether `wrapResponse` publishes `response.received` eagerly inside
this same wrapper boundary. -/
inductive ReqEv
  | socketAssigned
  | response (notPeekResp : Bool)
  | finish
  | abortEv
  | closeEv
  | timeoutEv
  deriving Repr, DecidableEq

/-- The wrapped `request.emit` (http-interceptor.ts:465-511): inside a `try`,
switch on the event name (install socket wrapping, build the response shell
and — when response capture is declined — publish `response.received`
immediately, or record `finish`/`close`/`timeout` timings); an exception is
caught and logged at this boundary and the real `emit` is always invoked. -/
def requestEmitWrapper (respListeners : List Listener) (t : Nat) (ev : ReqEv)
    (st : Ctx) : WrapResult :=
  match ev with
  | .socketAssigned => ⟨st, true, none⟩
  | .response notPeekResp =>
      if notPeekResp then
        let p := emitRun respListeners
        ⟨{ st with
            ran := st.ran ++ p.fst
            logged := st.logged + (if p.snd then 1 else 0) }, true, none⟩
      else ⟨st, true, none⟩
  | .finish => ⟨{ st with reqFinish := some t }, true, none⟩
  | .abortEv => ⟨{ st with reqClose := some t }, true, none⟩
  | .closeEv => ⟨{ st with reqClose := some t }, true, none⟩
  | .timeoutEv => ⟨{ st with reqTimeout := some t }, true, none⟩

/-- The events the wrapped `response.emit` dispatches on. -/
inductive RespEv
  | data (d : String ⊕ List Nat)
  | endEv
  | errorEv
  | abortedEv
  deriving Repr, DecidableEq

/-- The wrapped `response.emit` (http-interceptor.ts:599-658): inside a `try`,
on `data` set `timing.response.read` once and buffer bytes under the policy;
on `end` back-fill `read`, set `end`, finalize the body and publish
`response.received`; on `error` set the timing and publish `response.error`;
on `aborted` set the timing; a throwing observer is caught and logged at this
boundary and the real `emit` is always invoked. -/
def responseEmitWrapper (notPeek : Bool) (recvListeners errListeners : List Listener)
    (renc : EncArg) (t : Nat) (ev : RespEv) (st : Ctx) : WrapResult :=
  match ev with
  | .data d =>
      let st1 := if jsFalsyTime st.respRead then { st with respRead := some t } else st
      let st2 :=
        if notPeek then st1
        else
          match d with
          | .inl s => { st1 with respChunks := st1.respChunks ++ [decodeStr renc s] }
          | .inr b => { st1 with respChunks := st1.respChunks ++ [b] }
      ⟨st2, true, none⟩
  | .endEv =>
      let st1 := if jsFalsyTime st.respRead then { st with respRead := some t } else st
      let st2 := { st1 with respEnd := some t }
      if notPeek then ⟨st2, true, none⟩
      else
        let st3 := { st2 with resBody := .bytes st2.respChunks.flatten }
        let p := emitRun recvListeners
        ⟨{ st3 with
            ran := st3.ran ++ p.fst
            logged := st3.logged + (if p.snd then 1 else 0) }, true, none⟩
  | .errorEv =>
      let st1 := { st with respError := some t }
      let p := emitRun errListeners
      ⟨{ st1 with
          ran := st1.ran ++ p.fst
          logged := st1.logged + (if p.snd then 1 else 0) }, true, none⟩
  | .abortedEv => ⟨{ st with respAborted := some t }, true, none⟩

/-- The events the wrapped `socket.emit` dispatches on. -/
inductive SockEv
  | lookupEv
  | connectEv
  | secureConnectEv
  | readyEv
  | errorEv
  | closeEv
  deriving Repr, DecidableEq

/-- The wrapped `socket.emit` (http-interceptor.ts:661-696).  Unlike every
other wrapper this one has no `try`/`catch`: the switch records socket
timings, and on `error` publishes `socket.error`; if an observer throws, the
exception escapes this wrapper and the real `emit` is never invoked. -/
def socketEmitWrapper (sockErrListeners : List Listener) (t : Nat) (ev : SockEv)
    (st : Ctx) : WrapResult :=
  match ev with
  | .lookupEv => ⟨{ st with sockLookup := some t }, true, none⟩
  | .connectEv => ⟨{ st with sockConnect := some t }, true, none⟩
  | .secureConnectEv => ⟨{ st with sockTls := some t }, true, none⟩
  | .readyEv => ⟨{ st with sockReady := some t }, true, none⟩
  | .errorEv =>
      let st1 := { st with sockError := some t }
      let p := emitRun sockErrListeners
      let st2 := { st1 with ran := st1.ran ++ p.fst }
      if p.snd then ⟨st2, false, some .listenerError⟩ else ⟨st2, true, none⟩
  | .closeEv => ⟨{ st with sockClose := some t }, true, none⟩

/-- One `request.write` (or the final `request.end`) call: its wall-clock
time and its chunk/encoding arguments. -/
structure WOp where
  t : Nat
  chunk : Chunk
  enc : EncArg
  deriving Repr, DecidableEq

/-- Run a sequence of wrapped `write` calls. -/
def runWrites (notPeek : Bool) (ws : List WOp) (st : Ctx) : Ctx :=
  match ws with
  | [] => st
  | op :: rest => runWrites notPeek rest (writeWrapper notPeek op.t op.chunk op.enc st).ctx

/-- A full request-side body sequence on a fresh context: the wrapped writes
in call order, then the wrapped `end`. -/
def runRequestOps (notPeek : Bool) (sentListeners : List Listener)
    (ws : List WOp) (e : WOp) : Ctx :=
  (endWrapper notPeek sentListeners e.t e.chunk e.enc (runWrites notPeek ws ctx0)).ctx

/-! ## URL and method resolution -/

/-- A property of a JS options record: absent key, key present with value
`undefined`, or key present with a value. -/
inductive JsField (α : Type)
  | absent
  | undef
  | val (a : α)
  deriving Repr, DecidableEq

/-- The `in` operator: is the key present on the record? -/
def JsField.present {α : Type} : JsField α → Bool
  | .absent => false
  | _ => true

/-- Reading the property: `undefined` becomes `none`. -/
def JsField.toOption {α : Type} : JsField α → Option α
  | .val a => some a
  | _ => none

/-- A `port` value as Node accepts it: `number | string`. -/
inductive JsPort
  | num (n : Nat)
  | str (s : String)
  deriving Repr, DecidableEq

/-- JS truthiness of a port value. -/
def JsPort.truthy : JsPort → Bool
  | .num n => n != 0
  | .str s => s != ""

/-- How the port renders inside a template literal. -/
def JsPort.render : JsPort → String
  | .num n => toString n
  | .str s => s

/-- JS strict equality `===` of a port value against a number: a string-typed
port is never strictly equal to a number. -/
def JsPort.strictEqNum : JsPort → Nat → Bool
  | .num n, d => n == d
  | .str _, _ => false

/-- The options record shape `resolveHttpRequestUrl`/`resolveHttpRequestMethod`
read from: `host`/`hostname`/`port`/`protocol`/`path`/`method` properties plus
whether `agent` is an `https.Agent`. -/
structure ReqOptions where
  host : JsField String
  hostname : JsField String
  port : JsField JsPort
  protocol : JsField String
  agentIsHttpsAgent : Bool
  path : JsField String
  method : JsField String
  deriving Repr, DecidableEq

/-- JS `a || b` on `options.host || options.hostname`: the first truthy string,
else `hostname`'s raw value (`none` = `undefined`, on which a later property
access throws). -/
def jsOrHost (a b : JsField String) : Option String :=
  match a with
  | .val s => if s == "" then b.toOption else some s
  | _ => b.toOption

/-- JS `options.protocol || default`: the protocol when it is a truthy string. -/
def truthyStr : JsField String → Option String
  | .val s => if s == "" then none else some s
  | _ => none

/-- `${options.path}` inside the template literal: `undefined` renders as the
literal string. -/
def renderPath : JsField String → String
  | .val s => s
  | .absent => "undefined"
  | .undef => "undefined"

/-- JS `String.prototype.includes` for a single character, phrased over the
character list so concrete runs reduce. -/
def jsIncludes (s : String) (c : Char) : Bool :=
  s.data.contains c

/-- The first argument of `http.request`: a string, a `URL` (already rendered
by `toString()`), or an options record. -/
inductive UrlArg
  | str (s : String)
  | url (u : String)
  | opts (o : ReqOptions)
  deriving Repr, DecidableEq

/-- The second argument of `http.request`: missing, a callback function, or an
options record. -/
inductive Arg1
  | missing
  | callback
  | opts (o : ReqOptions)
  deriving Repr, DecidableEq

/-- `resolveHttpRequestUrl` (http-interceptor.ts:733-757): strings and URLs
verbatim; an options record with a `host` or `hostname` key is rebuilt as
`protocol//host[:port]path` where the default port (80/443) is derived from
whether `agent` is an `https.Agent`, the port is omitted when the host string
embeds a colon or the port is falsy or strictly equals that default; records
without `host`/`hostname` resolve to `<unknown>`.  Accessing `.includes` on an
`undefined` host throws. -/
def resolveHttpRequestUrl (a : UrlArg) : Except JsErr String :=
  match a with
  | .str s => .ok s
  | .url u => .ok u
  | .opts o =>
      if o.hostname.present || o.host.present then
        match jsOrHost o.host o.hostname with
        | none => .error .typeError
        | some host =>
            let isSecure := o.agentIsHttpsAgent
            let defaultPort : Nat := if isSecure then 443 else 80
            let port : String :=
              if jsIncludes host ':' then ""
              else
                match o.port with
                | .val p =>
                    if p.truthy && !(p.strictEqNum defaultPort) then ":" ++ p.render else ""
                | _ => ""
            let protocol := (truthyStr o.protocol).getD (if isSecure then "https:" else "http:")
            .ok (protocol ++ "//" ++ host ++ port ++ renderPath o.path)
      else .ok "<unknown>"

/-- `resolveHttpRequestMethod` (http-interceptor.ts:759-771): for a string/URL
first argument the method is read off `args[1]` (throwing a `TypeError` when
`args[1]` is missing, yielding `undefined` when it is a callback or lacks a
`method` key); for an options-record first argument, its `method` property
when the key is present, else the literal `GET`. -/
def resolveHttpRequestMethod (a : UrlArg) (b : Arg1) : Except JsErr (Option String) :=
  match a with
  | .str _ => resolveMethodFromArg1 b
  | .url _ => resolveMethodFromArg1 b
  | .opts o =>
      if o.method.present then .ok o.method.toOption
      else .ok (some "GET")
where
  resolveMethodFromArg1 : Arg1 → Except JsErr (Option String)
  | .missing => .error .typeError
  | .callback => .ok none
  | .opts o => .ok o.method.toOption

/-- Modelled from the claim's words (C5): rebuild `scheme://host[:port]path`
where the port is omitted exactly when it equals the *scheme's* default (80
for plain, 443 for secure, secure meaning the resolved scheme is `https:`) or
when the host string already embeds a port. -/
def urlSpecC5 (o : ReqOptions) : String :=
  let scheme := (truthyStr o.protocol).getD (if o.agentIsHttpsAgent then "https:" else "http:")
  let schemeDefault : Nat := if scheme == "https:" then 443 else 80
  let host := (jsOrHost o.host o.hostname).getD ""
  let port : String :=
    if jsIncludes host ':' then ""
    else
      match o.port with
      | .val p => if p.truthy && !(p.strictEqNum schemeDefault) then ":" ++ p.render else ""
      | _ => ""
  scheme ++ "//" ++ host ++ port ++ renderPath o.path

/-- Modelled from the amended claim (C5): as `urlSpecC5`, except that the
default port against which omission is decided is derived from the agent (443
when `agent` is an `https.Agent`, 80 otherwise), independent of any explicit
`protocol`; a string-typed port is never strictly equal to the default and is
always included. -/
def urlAmendedC5 (o : ReqOptions) : String :=
  let agentDefault : Nat := if o.agentIsHttpsAgent then 443 else 80
  let scheme := (truthyStr o.protocol).getD (if o.agentIsHttpsAgent then "https:" else "http:")
  let host := (jsOrHost o.host o.hostname).getD ""
  let port : String :=
    if jsIncludes host ':' then ""
    else
      match o.port with
      | .val p => if p.truthy && !(p.strictEqNum agentDefault) then ":" ++ p.render else ""
      | _ => ""
  scheme ++ "//" ++ host ++ port ++ renderPath o.path

/-! ## Installation state and the public API -/

/-- The state of one transport entry-point slot under shimmer wrapping: the
native function, or a wrapper layer (tagged by which wrapper the engine
installed) over an inner state.  `shimmer.wrap` pushes a layer; a matching
`shimmer.unwrap` pops exactly one layer. -/
inductive FnState
  | native
  | wrapGet (inner : FnState)
  | wrapRequest (inner : FnState)
  deriving Repr, DecidableEq

/-- `shimmer.unwrap`: restore the function the top wrapper captured; a no-op
on an unwrapped slot. -/
def shimmerUnwrap : FnState → FnState
  | .native => .native
  | .wrapGet inner => inner
  | .wrapRequest inner => inner

/-- One transport module (`http` or `https`) with its `get` and `request`
entry points. -/
structure Transport where
  getFn : FnState
  requestFn : FnState
  deriving Repr, DecidableEq

/-- `HttpInterceptor.wrap(transport)` (http-interceptor.ts:390-400 for the
entry-point installation): wraps both `get` and `request`. -/
def wrapTransport (t : Transport) : Transport :=
  { getFn := .wrapGet t.getFn, requestFn := .wrapRequest t.requestFn }

/-- The process-wide interceptor state: both transports, the enabled flag, the
installed stub (by identity) and the registered listeners (event name and
listener identity, in subscription order). -/
structure SysState where
  httpT : Transport
  httpsT : Transport
  enabled : Bool
  stubFn : Option Nat
  listeners : List (String × Nat)
  deriving Repr, DecidableEq

/-- `enable()` (http-interceptor.ts:361-367): when not enabled, wrap `get` and
`request` on both transports and flip the flag. -/
def enable (s : SysState) : SysState :=
  if s.enabled then s
  else
    { s with
      httpT := wrapTransport s.httpT
      httpsT := wrapTransport s.httpsT
      enabled := true }

/-- `disable()` (http-interceptor.ts:369-376): when enabled, unwrap `request`
on both transports (only `request`), remove all listeners and flip the flag. -/
def disable (s : SysState) : SysState :=
  if s.enabled then
    { s with
      httpT := { s.httpT with requestFn := shimmerUnwrap s.httpT.requestFn }
      httpsT := { s.httpsT with requestFn := shimmerUnwrap s.httpsT.requestFn }
      listeners := []
      enabled := false }
  else s

/-- `stub(stub)` (http-interceptor.ts:378-382): install only when the argument
is truthy. -/
def stubApi (f : Option Nat) (s : SysState) : SysState :=
  match f with
  | some g => { s with stubFn := some g }
  | none => s

/-- `unstub()` (http-interceptor.ts:384-388): clear the stub when one is set. -/
def unstub (s : SysState) : SysState :=
  if s.stubFn.isSome then { s with stubFn := none } else s

/-- `on(event, listener)` (http-interceptor.ts:698-700): append to the
emitter's listener list. -/
def onApi (ev : String) (l : Nat) (s : SysState) : SysState :=
  { s with listeners := s.listeners ++ [(ev, l)] }

/-- The public operations of the interceptor. -/
inductive ApiOp
  | enableOp
  | disableOp
  | stubOp (f : Option Nat)
  | unstubOp
  | onOp (ev : String) (l : Nat)
  deriving Repr, DecidableEq

/-- Interpret one public operation. -/
def applyOp (s : SysState) : ApiOp → SysState
  | .enableOp => enable s
  | .disableOp => disable s
  | .stubOp f => stubApi f s
  | .unstubOp => unstub s
  | .onOp ev l => onApi ev l s

/-- One `enable()`/`disable()` cycle. -/
def cycle (s : SysState) : SysState := disable (enable s)

/-- `n` enable/disable cycles. -/
def cycleN : Nat → SysState → SysState
  | 0, s => s
  | n + 1, s => cycleN n (cycle s)

/-- `n` accumulated `get` wrapper layers. -/
def stackGet : Nat → FnState → FnState
  | 0, f => f
  | n + 1, f => stackGet n (.wrapGet f)

/-- The all-native, disabled initial state of a fresh process. -/
def sysState0 : SysState :=
  { httpT := { getFn := .native, requestFn := .native }
    httpsT := { getFn := .native, requestFn := .native }
    enabled := false
    stubFn := none
    listeners := [] }

/-- The chunk-push step shared by the `write` and `end` wrappers: skip falsy
and function chunks, decode string chunks, append buffers verbatim. -/
def pushChunk (chs : List (List Nat)) (c : Chunk) (en : EncArg) : List (List Nat) :=
  match c with
  | .str s => if s == "" then chs else chs ++ [decodeStr en s]
  | .buf b => chs ++ [b]
  | .fn => chs
  | .nullish => chs

/-- Decidable equality for `Except` results, so concrete runs can be checked
by `decide`. -/
instance {e a : Type} [DecidableEq e] [DecidableEq a] : DecidableEq (Except e a) := fun x y =>
  match x, y with
  | .ok v, .ok w => if h : v = w then isTrue (by rw [h]) else isFalse (by simp [h])
  | .error v, .error w => if h : v = w then isTrue (by rw [h]) else isFalse (by simp [h])
  | .ok _, .error _ => isFalse (by simp)
  | .error _, .ok _ => isFalse (by simp)

/-! ## Theorems -/

theorem normaliseHeaders_eq_filterMap (hs : List (String × HeaderValue)) :
    normaliseHeaders hs =
      hs.filterMap (fun kv =>
        if jsTruthyHV kv.2 then some (kv.1, normaliseOne kv.2) else none) := by
  have aux : ∀ (l : List (String × HeaderValue)) (acc : List (String × NVal)),
      l.foldl
          (fun acc kv =>
            if jsTruthyHV kv.2 then acc ++ [(kv.1, normaliseOne kv.2)] else acc)
          acc
        = acc ++ l.filterMap (fun kv =>
            if jsTruthyHV kv.2 then some (kv.1, normaliseOne kv.2) else none) := by
    intro l
    induction l with
    | nil => intro acc; simp
    | cons kv rest ih =>
        intro acc
        cases h : jsTruthyHV kv.2 <;>
          simp [List.filterMap_cons, h, ih]
  simpa [normaliseHeaders] using aux hs []

theorem lookupH_normalise_notMem (hs : List (String × HeaderValue)) (k : String)
    (h : k ∉ hs.map Prod.fst) :
    lookupH (normaliseHeaders hs) k = none := by
  rw [normaliseHeaders_eq_filterMap]
  induction hs with
  | nil => rfl
  | cons kv rest ih =>
      have hk : kv.1 ≠ k := by
        intro he; exact h (by simp [he])
      have hrest : k ∉ rest.map Prod.fst := by
        intro hr; exact h (by simp [hr])
      cases ht : jsTruthyHV kv.2 <;>
        simp [List.filterMap_cons, ht, lookupH, hk, ih hrest]

theorem lookupH_normalise_mem (hs : List (String × HeaderValue)) (k : String)
    (v : HeaderValue) (hnd : (hs.map Prod.fst).Nodup) (hmem : (k, v) ∈ hs) :
    lookupH (normaliseHeaders hs) k =
      if jsTruthyHV v then some (normaliseOne v) else none := by
  induction hs with
  | nil => cases hmem
  | cons kv rest ih =>
      rw [List.map_cons, List.nodup_cons] at hnd
      rcases List.mem_cons.mp hmem with heq | hmem2
      · have hkv : kv = (k, v) := heq.symm
        subst hkv
        have hnotin : k ∉ rest.map Prod.fst := hnd.1
        rw [normaliseHeaders_eq_filterMap, List.filterMap_cons]
        cases ht : jsTruthyHV v with
        | false =>
            simp only [ht, Bool.false_eq_true, if_false]
            rw [← normaliseHeaders_eq_filterMap]
            exact lookupH_normalise_notMem rest k hnotin
        | true =>
            simp [ht, lookupH]
      · have hkne : kv.1 ≠ k := by
          intro he
          exact hnd.1 (he ▸ (List.mem_map.mpr ⟨(k, v), hmem2, rfl⟩))
        have := ih hnd.2 hmem2
        cases ht : jsTruthyHV kv.2 <;>
          simp_all [normaliseHeaders_eq_filterMap, List.filterMap_cons, ht, lookupH, hkne]

/-- C10: an entry whose value is falsy (undefined, the empty string, or the
number 0) is absent from the normalised headers, while a non-zero numeric
value is converted to its base-10 string representation; hence a header
explicitly set to the empty string never appears in a published snapshot. -/
theorem claimC10 (hs : List (String × HeaderValue)) (k : String)
    (hnd : (hs.map Prod.fst).Nodup) :
    (∀ v : HeaderValue, (k, v) ∈ hs → jsTruthyHV v = false →
        lookupH (normaliseHeaders hs) k = none)
    ∧ (∀ n : Int, (k, HeaderValue.num n) ∈ hs → n ≠ 0 →
        lookupH (normaliseHeaders hs) k = some (.one (toString n))) := by
  constructor
  · intro v hmem hf
    rw [lookupH_normalise_mem hs k v hnd hmem, hf]
    rfl
  · intro n hmem hn
    have ht : jsTruthyHV (.num n) = true := by
      simp [jsTruthyHV, hn]
    rw [lookupH_normalise_mem hs k (.num n) hnd hmem, ht]
    rfl

theorem claimC10_witness :
    (([("a", HeaderValue.str ""), ("b", .num 5), ("c", .num 0)].map Prod.fst).Nodup)
    ∧ lookupH (normaliseHeaders [("a", HeaderValue.str ""), ("b", .num 5), ("c", .num 0)]) "a" = none
    ∧ lookupH (normaliseHeaders [("a", HeaderValue.str ""), ("b", .num 5), ("c", .num 0)]) "b"
        = some (.one "5") :=
  ⟨by decide,
   (claimC10 [("a", HeaderValue.str ""), ("b", .num 5), ("c", .num 0)] "a" (by decide)).1
     (.str "") (by decide) (by decide),
   (claimC10 [("a", HeaderValue.str ""), ("b", .num 5), ("c", .num 0)] "b" (by decide)).2
     5 (by decide) (by decide)⟩

theorem optOr_none (a : Option NVal) : optOr a none = a := by
  cases a <;> rfl

theorem lookupH_append (l1 l2 : List (String × NVal)) (k : String) :
    lookupH (l1 ++ l2) k = optOr (lookupH l1 k) (lookupH l2 k) := by
  induction l1 with
  | nil => rfl
  | cons kv rest ih =>
      cases h : (kv.1 == k) <;> simp [lookupH, h, ih, optOr]

theorem lookupH_mapOver (base over : List (String × NVal)) (k : String) :
    lookupH (base.map (fun kv => (kv.1, (lookupH over kv.1).getD kv.2))) k
      = (lookupH base k).map (fun v => (lookupH over k).getD v) := by
  induction base with
  | nil => rfl
  | cons kv rest ih =>
      by_cases h : kv.1 = k
      · subst h
        simp [lookupH]
      · have hb : (kv.1 == k) = false := by simp [h]
        simp [lookupH, hb, ih]

theorem lookupH_filter_of_base_none (base over : List (String × NVal)) (k : String)
    (hb : lookupH base k = none) :
    lookupH (over.filter (fun kv => (lookupH base kv.1).isNone)) k = lookupH over k := by
  induction over with
  | nil => rfl
  | cons kv rest ih =>
      by_cases h : kv.1 = k
      · subst h
        have : (lookupH base kv.1).isNone = true := by rw [hb]; rfl
        simp [List.filter_cons, this, lookupH]
      · have hbq : (kv.1 == k) = false := by simp [h]
        cases hq : (lookupH base kv.1).isNone <;>
          simp [List.filter_cons, hq, lookupH, hbq, ih]

theorem lookupH_objSpread (base over : List (String × NVal)) (k : String) :
    lookupH (objSpread base over) k = optOr (lookupH over k) (lookupH base k) := by
  rw [objSpread, lookupH_append, lookupH_mapOver]
  cases hb : lookupH base k with
  | none =>
      rw [lookupH_filter_of_base_none base over k hb]
      cases ho : lookupH over k <;> simp [optOr]
  | some v =>
      cases ho : lookupH over k <;> simp [optOr]

/-- C8 counterexample: a stub whose returned response carries the (falsy)
status code 0 and the (falsy) empty status text is fabricated with status 200
and text `OK`, not with the stub's own values, because the engine guards both
with `||` (falsy, not merely absent, triggers the default). -/
theorem claimC8_counterexample :
    (fabricateStubResponse
        { statusCode := some 0, statusMessage := some "", headers := [], body := [7] }
        "today").statusCode = 200
    ∧ (0 : Nat) ≠ 200
    ∧ (fabricateStubResponse
        { statusCode := some 0, statusMessage := some "", headers := [], body := [7] }
        "today").statusMessage = "OK"
    ∧ ("" : String) ≠ "OK" := by
  refine ⟨rfl, by decide, rfl, by decide⟩

/-- C8 (amended): the fabricated stub response carries the stub's status code
when that is a non-zero number and 200 when it is absent or 0 (falsy); the
stub's status text when that is a non-empty string and `OK` when it is absent
or empty; a header set in which, at every name, the stub's own normalised
header wins and the fixed diagnostic block fills in the rest; and the stub's
body bytes verbatim. -/
theorem claimC8_amended (sr : StubResponse) (date : String) :
    ((sr.statusCode = none ∨ sr.statusCode = some 0) →
        (fabricateStubResponse sr date).statusCode = 200)
    ∧ (∀ n : Nat, sr.statusCode = some n → n ≠ 0 →
        (fabricateStubResponse sr date).statusCode = n)
    ∧ ((sr.statusMessage = none ∨ sr.statusMessage = some "") →
        (fabricateStubResponse sr date).statusMessage = "OK")
    ∧ (∀ s : String, sr.statusMessage = some s → s ≠ "" →
        (fabricateStubResponse sr date).statusMessage = s)
    ∧ (∀ k : String,
        lookupH (fabricateStubResponse sr date).headers k
          = optOr (lookupH (normaliseHeaders sr.headers) k)
              (lookupH (diagnosticHeaders date) k))
    ∧ (fabricateStubResponse sr date).body = sr.body := by
  refine ⟨?_, ?_, ?_, ?_, ?_, rfl⟩
  · rintro (h | h) <;> simp [fabricateStubResponse, h]
  · intro n hn hnz
    simp [fabricateStubResponse, hn, hnz]
  · rintro (h | h) <;> simp [fabricateStubResponse, h]
  · intro s hs hse
    simp [fabricateStubResponse, hs, hse]
  · intro k
    exact lookupH_objSpread (diagnosticHeaders date) (normaliseHeaders sr.headers) k

theorem claimC8_witness :
    ((⟨some 0, none, [("x-stub", HeaderValue.str "false")], [1, 2]⟩ : StubResponse).statusCode = none
      ∨ (⟨some 0, none, [("x-stub", HeaderValue.str "false")], [1, 2]⟩ : StubResponse).statusCode
          = some 0)
    ∧ (fabricateStubResponse
        ⟨some 0, none, [("x-stub", HeaderValue.str "false")], [1, 2]⟩ "D").statusCode = 200
    ∧ lookupH (fabricateStubResponse
        ⟨some 0, none, [("x-stub", HeaderValue.str "false")], [1, 2]⟩ "D").headers "x-stub"
        = some (.one "false") :=
  ⟨Or.inr rfl,
   (claimC8_amended
      ⟨some 0, none, [("x-stub", HeaderValue.str "false")], [1, 2]⟩ "D").1 (Or.inr rfl),
   by
     rw [(claimC8_amended
        ⟨some 0, none, [("x-stub", HeaderValue.str "false")], [1, 2]⟩ "D").2.2.2.2.1 "x-stub"]
     decide⟩

/-- C3 counterexample: with a string first argument, `http.request(url, {})`
(an options record without a `method` key) records `undefined` as the method,
not `GET`; and `http.request(url)` with no second argument at all — a shape
the real entry point accepts — makes resolution throw a `TypeError` that
reaches the caller. -/
theorem claimC3_counterexample :
    resolveHttpRequestMethod (.str "http://example.com/")
        (.opts ⟨.absent, .absent, .absent, .absent, false, .absent, .absent⟩)
      = .ok none
    ∧ (Except.ok none : Except JsErr (Option String)) ≠ .ok (some "GET")
    ∧ resolveHttpRequestMethod (.str "http://example.com/") .missing
      = .error .typeError := by
  refine ⟨by decide, by decide, by decide⟩

/-- C3 (amended): when the first argument is an options record, the recorded
method is that record's `method` property when the key is present and the
literal `GET` otherwise, and resolution never throws; when the first argument
is a string (or URL), the method is read off the second argument — its
`method` property when it is an options record (possibly `undefined`),
`undefined` when it is a callback, and a `TypeError` that propagates to the
caller when the second argument is missing. -/
theorem claimC3_amended :
    (∀ (o : ReqOptions) (b : Arg1),
        resolveHttpRequestMethod (.opts o) b
          = .ok (if o.method.present then o.method.toOption else some "GET"))
    ∧ (∀ s : String,
        resolveHttpRequestMethod (.str s) .missing = .error .typeError)
    ∧ (∀ (s : String) (o : ReqOptions),
        resolveHttpRequestMethod (.str s) (.opts o) = .ok o.method.toOption)
    ∧ (∀ s : String,
        resolveHttpRequestMethod (.str s) .callback = .ok none) := by
  refine ⟨?_, fun s => rfl, fun s o => rfl, fun s => rfl⟩
  intro o b
  cases h : o.method.present <;>
    simp [resolveHttpRequestMethod, h]

/-- C9: calling `stub` with a null/undefined argument is a complete no-op
(any previously installed stub stays), and among the public operations only
`unstub()` ever removes an installed stub. -/
theorem enable_stubFn (s : SysState) : (enable s).stubFn = s.stubFn := by
  unfold enable; split <;> rfl

theorem disable_stubFn (s : SysState) : (disable s).stubFn = s.stubFn := by
  unfold disable; split <;> rfl

theorem claimC9 :
    (∀ s : SysState, applyOp s (.stubOp none) = s)
    ∧ (∀ (s : SysState) (op : ApiOp),
        s.stubFn.isSome = true → (applyOp s op).stubFn = none → op = .unstubOp) := by
  constructor
  · intro s; rfl
  · intro s op h1 h2
    cases op with
    | enableOp =>
        exfalso
        rw [show applyOp s .enableOp = enable s from rfl, enable_stubFn] at h2
        rw [h2] at h1
        simp at h1
    | disableOp =>
        exfalso
        rw [show applyOp s .disableOp = disable s from rfl, disable_stubFn] at h2
        rw [h2] at h1
        simp at h1
    | stubOp f =>
        exfalso
        cases f with
        | none =>
            rw [show applyOp s (.stubOp none) = s from rfl] at h2
            rw [h2] at h1
            simp at h1
        | some g => simp [applyOp, stubApi] at h2
    | unstubOp => rfl
    | onOp ev l =>
        exfalso
        rw [show (applyOp s (.onOp ev l)).stubFn = s.stubFn from rfl] at h2
        rw [h2] at h1
        simp at h1

theorem claimC9_witness :
    ((⟨⟨.native, .native⟩, ⟨.native, .native⟩, false, some 7, []⟩ : SysState).stubFn.isSome = true)
    ∧ ((applyOp ⟨⟨.native, .native⟩, ⟨.native, .native⟩, false, some 7, []⟩ .unstubOp).stubFn = none)
    ∧ ApiOp.unstubOp = ApiOp.unstubOp :=
  ⟨by decide, by decide,
   claimC9.2 ⟨⟨.native, .native⟩, ⟨.native, .native⟩, false, some 7, []⟩ .unstubOp
     (by decide) (by decide)⟩

/-- C4 counterexample: from the pristine disabled state, one
`enable()`/`disable()` cycle restores the `request` entry point but leaves
the `get` entry point wrapped — `disable` only ever unwraps `request` — so
the transport does not end in its original un-wrapped state. -/
theorem claimC4_counterexample :
    (disable (enable sysState0)).httpT.getFn = .wrapGet .native
    ∧ FnState.wrapGet .native ≠ FnState.native
    ∧ (disable (enable sysState0)).httpT.requestFn = .native := by
  refine ⟨by decide, by decide, by decide⟩

/-- C4 (amended): starting disabled, after any number of enable/disable
cycles the `request` entry points of both transports are back in their
original state and the interceptor is disabled, but the `get` entry points
carry one accumulated wrapper layer per cycle (residue); the leftover `get`
wrapper only delegates to the current `request` entry point and finalizes
the request, so the request path itself is restored. -/
theorem claimC4_amended (n : Nat) (s : SysState) (h : s.enabled = false) :
    (cycleN n s).httpT.requestFn = s.httpT.requestFn
    ∧ (cycleN n s).httpsT.requestFn = s.httpsT.requestFn
    ∧ (cycleN n s).httpT.getFn = stackGet n s.httpT.getFn
    ∧ (cycleN n s).httpsT.getFn = stackGet n s.httpsT.getFn
    ∧ (cycleN n s).enabled = false := by
  induction n generalizing s with
  | zero => exact ⟨rfl, rfl, rfl, rfl, h⟩
  | succ m ih =>
      have hc : cycle s
          = { s with
              httpT := ⟨.wrapGet s.httpT.getFn, s.httpT.requestFn⟩
              httpsT := ⟨.wrapGet s.httpsT.getFn, s.httpsT.requestFn⟩
              listeners := []
              enabled := false } := by
        simp [cycle, enable, disable, wrapTransport, shimmerUnwrap, h]
      have h2 : (cycle s).enabled = false := by rw [hc]
      obtain ⟨a1, a2, a3, a4, a5⟩ := ih (cycle s) h2
      have e1 : cycleN (m + 1) s = cycleN m (cycle s) := rfl
      refine ⟨?_, ?_, ?_, ?_, ?_⟩
      · rw [e1, a1, hc]
      · rw [e1, a2, hc]
      · rw [e1, a3, hc]
        rfl
      · rw [e1, a4, hc]
        rfl
      · rw [e1, a5]

theorem claimC4_witness :
    sysState0.enabled = false
    ∧ ((cycleN 2 sysState0).httpT.requestFn = sysState0.httpT.requestFn
        ∧ (cycleN 2 sysState0).httpsT.requestFn = sysState0.httpsT.requestFn
        ∧ (cycleN 2 sysState0).httpT.getFn = stackGet 2 sysState0.httpT.getFn
        ∧ (cycleN 2 sysState0).httpsT.getFn = stackGet 2 sysState0.httpsT.getFn
        ∧ (cycleN 2 sysState0).enabled = false) :=
  ⟨rfl, claimC4_amended 2 sysState0 rfl⟩

/-- C5 counterexample: for the options record `{ host: 'example.com',
protocol: 'https:', port: 443, path: '/' }` with no TLS agent, the resolved
scheme is `https:` whose default port is 443, so the claim requires the port
to be omitted; the code instead computes the default port from the agent
(none, hence 80) and keeps `:443`. -/
theorem claimC5_counterexample :
    resolveHttpRequestUrl
        (.opts ⟨.val "example.com", .absent, .val (.num 443), .val "https:", false,
          .val "/", .absent⟩)
      = .ok "https://example.com:443/"
    ∧ urlSpecC5
        ⟨.val "example.com", .absent, .val (.num 443), .val "https:", false,
          .val "/", .absent⟩
      = "https://example.com/"
    ∧ ("https://example.com:443/" : String) ≠ "https://example.com/" := by
  refine ⟨by decide, by decide, by decide⟩

/-- C5 (amended): for an options record carrying a `host`/`hostname` key that
yields a usable host string, the resolved URL is `scheme://host[:port]path`
where the port component is omitted exactly when the host string already
embeds a colon, or the port is absent/falsy, or the port strictly equals the
default derived from the agent (443 when `agent` is an `https.Agent`, 80
otherwise) — not from the resolved scheme; a string-typed port is never
strictly equal to that default and is always included. -/
theorem claimC5_amended (o : ReqOptions) (hst : String)
    (h1 : (o.hostname.present || o.host.present) = true)
    (h2 : jsOrHost o.host o.hostname = some hst) :
    resolveHttpRequestUrl (.opts o) = .ok (urlAmendedC5 o) := by
  simp only [resolveHttpRequestUrl, urlAmendedC5, h1, if_true, h2, Option.getD_some]

theorem claimC5_witness :
    ((ReqOptions.hostname (⟨.absent, .val "example.org", .val (.num 8080), .absent, false,
          .val "/x", .absent⟩ : ReqOptions)).present
        || (ReqOptions.host (⟨.absent, .val "example.org", .val (.num 8080), .absent, false,
          .val "/x", .absent⟩ : ReqOptions)).present) = true
    ∧ jsOrHost JsField.absent (.val "example.org") = some "example.org"
    ∧ resolveHttpRequestUrl
        (.opts ⟨.absent, .val "example.org", .val (.num 8080), .absent, false,
          .val "/x", .absent⟩)
      = .ok (urlAmendedC5
          ⟨.absent, .val "example.org", .val (.num 8080), .absent, false,
            .val "/x", .absent⟩)
    ∧ urlAmendedC5
        ⟨.absent, .val "example.org", .val (.num 8080), .absent, false,
          .val "/x", .absent⟩
      = "http://example.org:8080/x" :=
  ⟨by decide, by decide,
   claimC5_amended
     ⟨.absent, .val "example.org", .val (.num 8080), .absent, false, .val "/x", .absent⟩
     "example.org" (by decide) (by decide),
   by decide⟩

theorem decodeStr_empty (e : EncArg) : decodeStr e "" = [] := by
  cases e with
  | enc e1 => cases e1 <;> rfl
  | noEnc => rfl
  | cb => rfl

theorem pushChunk_flatten (chs : List (List Nat)) (c : Chunk) (en : EncArg) :
    (pushChunk chs c en).flatten = chs.flatten ++ chunkBytes c en := by
  cases c with
  | str s =>
      by_cases hs : s = ""
      · subst hs
        simp [pushChunk, chunkBytes, decodeStr_empty]
      · simp [pushChunk, chunkBytes, hs]
  | buf b => simp [pushChunk, chunkBytes]
  | fn => simp [pushChunk, chunkBytes]
  | nullish => simp [pushChunk, chunkBytes]

theorem writeWrapper_eq (np : Bool) (t : Nat) (c : Chunk) (en : EncArg) (st : Ctx) :
    writeWrapper np t c en st =
      ⟨{ st with
          reqWrite := if jsFalsyTime st.reqWrite then some t else st.reqWrite
          chunks := if np then st.chunks else pushChunk st.chunks c en },
        true, none⟩ := by
  cases hf : jsFalsyTime st.reqWrite <;> cases np <;> cases c <;>
      simp [writeWrapper, pushChunk, hf] <;>
    (try split) <;> simp

theorem endWrapper_eq (np : Bool) (L : List Listener) (t : Nat) (c : Chunk)
    (en : EncArg) (st : Ctx) :
    endWrapper np L t c en st =
      ⟨{ st with
          reqWrite := if jsFalsyTime st.reqWrite then some t else st.reqWrite
          reqEnd := some t
          chunks := if np then st.chunks else pushChunk st.chunks c en
          reqBody := if np then st.reqBody
            else .bytes (pushChunk st.chunks c en).flatten
          ran := st.ran ++ (emitRun L).fst
          logged := st.logged + (if (emitRun L).snd then 1 else 0) },
        true, none⟩ := by
  cases hf : jsFalsyTime st.reqWrite <;> cases np <;> cases c <;>
      simp [endWrapper, pushChunk, hf] <;>
    (try split) <;> simp

/-- C1 counterexample: the socket emit wrapper has no `try`/`catch`, so with a
single registered `socket.error` observer that throws, dispatching a socket
`error` event lets the exception escape the wrapper and the real underlying
`socket.emit` is never invoked — the caller-visible flow is broken, contrary
to the claim that every wrapping boundary catches, logs and swallows. -/
theorem claimC1_counterexample :
    (socketEmitWrapper [⟨1, true⟩] 5 .errorEv ctx0).underlyingInvoked = false
    ∧ (socketEmitWrapper [⟨1, true⟩] 5 .errorEv ctx0).thrown = some .listenerError := by
  refine ⟨by decide, by decide⟩

/-- C1 (amended): an unexpected exception inside the request emit, write, end
and response emit wrappers is caught at that wrapping boundary (nothing is
thrown to the caller), the real underlying operation is still invoked
afterwards, and — at the end wrapper — a throwing `request.sent` dispatch is
logged; the socket emit wrapper alone has no such boundary, so an exception
there propagates and skips the underlying emit. -/
theorem claimC1_amended :
    (∀ (L : List Listener) (t : Nat) (ev : ReqEv) (st : Ctx),
        (requestEmitWrapper L t ev st).thrown = none
        ∧ (requestEmitWrapper L t ev st).underlyingInvoked = true)
    ∧ (∀ (np : Bool) (rl el : List Listener) (renc : EncArg) (t : Nat)
          (ev : RespEv) (st : Ctx),
        (responseEmitWrapper np rl el renc t ev st).thrown = none
        ∧ (responseEmitWrapper np rl el renc t ev st).underlyingInvoked = true)
    ∧ (∀ (np : Bool) (t : Nat) (c : Chunk) (en : EncArg) (st : Ctx),
        (writeWrapper np t c en st).thrown = none
        ∧ (writeWrapper np t c en st).underlyingInvoked = true)
    ∧ (∀ (np : Bool) (L : List Listener) (t : Nat) (c : Chunk) (en : EncArg) (st : Ctx),
        (endWrapper np L t c en st).thrown = none
        ∧ (endWrapper np L t c en st).underlyingInvoked = true
        ∧ (endWrapper np L t c en st).ctx.logged
            = st.logged + (if (emitRun L).snd then 1 else 0)) := by
  refine ⟨?_, ?_, ?_, ?_⟩
  · intro L t ev st
    cases ev with
    | response npr => cases npr <;> exact ⟨rfl, rfl⟩
    | socketAssigned => exact ⟨rfl, rfl⟩
    | finish => exact ⟨rfl, rfl⟩
    | abortEv => exact ⟨rfl, rfl⟩
    | closeEv => exact ⟨rfl, rfl⟩
    | timeoutEv => exact ⟨rfl, rfl⟩
  · intro np rl el renc t ev st
    cases ev with
    | data d => exact ⟨rfl, rfl⟩
    | endEv => cases np <;> exact ⟨rfl, rfl⟩
    | errorEv => exact ⟨rfl, rfl⟩
    | abortedEv => exact ⟨rfl, rfl⟩
  · intro np t c en st
    rw [writeWrapper_eq]
    exact ⟨rfl, rfl⟩
  · intro np L t c en st
    rw [endWrapper_eq]
    exact ⟨rfl, rfl, rfl⟩

theorem emitRun_append_throw (pre : List Listener) (l : Listener) (post : List Listener)
    (hpre : ∀ x ∈ pre, x.throws = false) (hl : l.throws = true) :
    emitRun (pre ++ l :: post) = (pre.map Listener.id ++ [l.id], true) := by
  induction pre with
  | nil => simp [emitRun, hl]
  | cons x xs ih =>
      have hx : x.throws = false := hpre x (by simp)
      have ihh := ih (fun y hy => hpre y (by simp [hy]))
      simp [emitRun, hx, ihh]

/-- C2 counterexample: with two `request.sent` observers subscribed in order —
the first throwing, the second well-behaved — the end-of-request dispatch runs
only the first; the second observer never runs, contrary to the claim that
every remaining observer still runs. -/
theorem claimC2_counterexample :
    (endWrapper false [⟨1, true⟩, ⟨2, false⟩] 3 .nullish .noEnc ctx0).ctx.ran = [1]
    ∧ (2 : Nat) ∉ (endWrapper false [⟨1, true⟩, ⟨2, false⟩] 3 .nullish .noEnc ctx0).ctx.ran := by
  refine ⟨by decide, by decide⟩

/-- C2 (amended): when an observer of the `request.sent` event throws, the
observers subscribed before it have already run in subscription order, the
dispatch stops — observers subscribed after it do not run — and the exception
is caught and logged at the end-wrapper boundary, never reaching the caller
of the underlying transport (the underlying `end` is still invoked). -/
theorem claimC2_amended (np : Bool) (pre : List Listener) (l : Listener)
    (post : List Listener) (t : Nat) (c : Chunk) (en : EncArg) (st : Ctx)
    (hpre : ∀ x ∈ pre, x.throws = false) (hl : l.throws = true) :
    (endWrapper np (pre ++ l :: post) t c en st).ctx.ran
      = st.ran ++ (pre.map Listener.id ++ [l.id])
    ∧ (endWrapper np (pre ++ l :: post) t c en st).thrown = none
    ∧ (endWrapper np (pre ++ l :: post) t c en st).underlyingInvoked = true
    ∧ (endWrapper np (pre ++ l :: post) t c en st).ctx.logged = st.logged + 1 := by
  rw [endWrapper_eq]
  rw [emitRun_append_throw pre l post hpre hl]
  exact ⟨rfl, rfl, rfl, rfl⟩

theorem claimC2_witness :
    (∀ x ∈ [(⟨1, false⟩ : Listener)], x.throws = false)
    ∧ (⟨2, true⟩ : Listener).throws = true
    ∧ ((endWrapper false ([⟨1, false⟩] ++ ⟨2, true⟩ :: [⟨3, false⟩]) 4 .nullish .noEnc ctx0).ctx.ran
        = ctx0.ran ++ ([(⟨1, false⟩ : Listener)].map Listener.id ++ [2])
      ∧ (endWrapper false ([⟨1, false⟩] ++ ⟨2, true⟩ :: [⟨3, false⟩]) 4 .nullish .noEnc ctx0).thrown
        = none
      ∧ (endWrapper false ([⟨1, false⟩] ++ ⟨2, true⟩ :: [⟨3, false⟩]) 4 .nullish .noEnc ctx0).underlyingInvoked
        = true
      ∧ (endWrapper false ([⟨1, false⟩] ++ ⟨2, true⟩ :: [⟨3, false⟩]) 4 .nullish .noEnc ctx0).ctx.logged
        = ctx0.logged + 1) :=
  ⟨by decide, rfl,
   claimC2_amended false [⟨1, false⟩] ⟨2, true⟩ [⟨3, false⟩] 4 .nullish .noEnc ctx0
     (by decide) rfl⟩

/-- C7: when `end` is invoked on a fresh request context with no prior write
— a zero-byte body — the `request.write` checkpoint is back-filled with
exactly the timestamp recorded for `request.end`, so `write == end` and
`write` is never left unset; this holds for any capture-policy decision,
observers and final-chunk arguments. -/
theorem claimC7 (np : Bool) (L : List Listener) (t : Nat) (c : Chunk) (en : EncArg) :
    (endWrapper np L t c en ctx0).ctx.reqWrite = some t
    ∧ (endWrapper np L t c en ctx0).ctx.reqEnd = some t := by
  rw [endWrapper_eq]
  exact ⟨rfl, rfl⟩

theorem runWrites_flatten (ws : List WOp) (st : Ctx) :
    (runWrites false ws st).chunks.flatten
      = st.chunks.flatten ++ (ws.map (fun op => chunkBytes op.chunk op.enc)).flatten := by
  induction ws generalizing st with
  | nil => simp [runWrites]
  | cons op rest ih =>
      rw [runWrites, writeWrapper_eq]
      rw [ih]
      simp [pushChunk_flatten]

theorem runWrites_reqWrite (ws : List WOp) :
    ∀ st : Ctx, (∀ op ∈ ws, 1 ≤ op.t) →
      (runWrites false ws st).reqWrite
        = if jsFalsyTime st.reqWrite then
            (match ws with
             | [] => st.reqWrite
             | op :: _ => some op.t)
          else st.reqWrite := by
  induction ws with
  | nil =>
      intro st h
      split <;> rfl
  | cons op rest ih =>
      intro st h
      have h1 : 1 ≤ op.t := (h op (List.mem_cons_self op rest))
      have hrest : ∀ x ∈ rest, 1 ≤ x.t := fun x hx => h x (List.mem_cons_of_mem op hx)
      rw [runWrites, writeWrapper_eq, ih _ hrest]
      cases hf : jsFalsyTime st.reqWrite with
      | true =>
          have hnz : (op.t == 0) = false := by
            simp [Nat.one_le_iff_ne_zero.mp h1]
          simp [hf, jsFalsyTime, hnz]
      | false => simp [hf]

/-- C6: for a request on a fresh context with body capture enabled, after any
sequence of wrapped writes (at positive, end-bounded times) followed by the
wrapped `end`, the snapshot body published with `request.sent` equals the
exact bytes passed to the write/end calls — string chunks decoded with the
per-call encoding, UTF-8 by default — concatenated in call order, and the
timings satisfy `request.write ≤ request.end`. -/
theorem claimC6 (ws : List WOp) (e : WOp) (L : List Listener)
    (h : ∀ op ∈ ws, 1 ≤ op.t ∧ op.t ≤ e.t) :
    (runRequestOps false L ws e).reqBody
      = .bytes ((ws ++ [e]).map (fun op => chunkBytes op.chunk op.enc)).flatten
    ∧ ∃ tw te, (runRequestOps false L ws e).reqWrite = some tw
        ∧ (runRequestOps false L ws e).reqEnd = some te ∧ tw ≤ te := by
  have h1 : ∀ op ∈ ws, 1 ≤ op.t := fun op hop => (h op hop).1
  constructor
  · have hF := runWrites_flatten ws ctx0
    have hctx : ctx0.chunks.flatten = [] := rfl
    rw [hctx, List.nil_append] at hF
    rw [runRequestOps, endWrapper_eq]
    simp [pushChunk_flatten, hF, List.map_append]
  · rw [runRequestOps, endWrapper_eq]
    cases ws with
    | nil =>
        refine ⟨e.t, e.t, ?_, rfl, le_refl _⟩
        simp [runWrites, ctx0, jsFalsyTime]
    | cons op rest =>
        have h0 : 1 ≤ op.t := (h op (List.mem_cons_self op rest)).1
        have hle : op.t ≤ e.t := (h op (List.mem_cons_self op rest)).2
        have hW := runWrites_reqWrite (op :: rest) ctx0 h1
        have hstW : (runWrites false (op :: rest) ctx0).reqWrite = some op.t := by
          rw [hW]
          simp [ctx0, jsFalsyTime]
        have hnz : (op.t == 0) = false := by
          simp [Nat.one_le_iff_ne_zero.mp h0]
        refine ⟨op.t, e.t, ?_, rfl, hle⟩
        simp [hstW, jsFalsyTime, hnz]

theorem claimC6_witness :
    (∀ op ∈ [(⟨1, .str "ab", .noEnc⟩ : WOp)], 1 ≤ op.t ∧ op.t ≤ (⟨2, .buf [255], .noEnc⟩ : WOp).t)
    ∧ ((runRequestOps false [] [⟨1, .str "ab", .noEnc⟩] ⟨2, .buf [255], .noEnc⟩).reqBody
        = .bytes (([⟨1, .str "ab", .noEnc⟩, ⟨2, .buf [255], .noEnc⟩] : List WOp).map
            (fun op => chunkBytes op.chunk op.enc)).flatten
      ∧ ∃ tw te,
          (runRequestOps false [] [⟨1, .str "ab", .noEnc⟩] ⟨2, .buf [255], .noEnc⟩).reqWrite
            = some tw
          ∧ (runRequestOps false [] [⟨1, .str "ab", .noEnc⟩] ⟨2, .buf [255], .noEnc⟩).reqEnd
            = some te
          ∧ tw ≤ te) :=
  ⟨by decide, claimC6 [⟨1, .str "ab", .noEnc⟩] ⟨2, .buf [255], .noEnc⟩ [] (by decide)⟩
